import Mathlib

/-
Shallow embedding of src/config/config.py (class Config) from the repository
ScarletLovell/python-helpers, together with the dotted-key dictionary
operations of its dependency dotty_dict (class Dotty, factory dotty, with the
default separator "." and no escape characters in play: none of the keys the
claims use contain a backslash).

Modelling choices, spelled out once here:
  - JSON values are the inductive JVal below; Python dicts are association
    lists with the exact Python dict behaviour of assignment (replace the
    binding in place when the key is present, append otherwise) and lookup
    (first binding wins).  Numbers are Int: no claim involves non-integer
    numbers, and json round-trips integers exactly.
  - Python exceptions are the error side of Except.  A raising call returns
    the error and, as in the traced source, no caller of a raising dotty
    primitive commits any earlier mutation before the point of the raise, so
    dropping the state on the error side is faithful.
  - The file at the configured location is one slot: none models a missing
    file, FileData.badJson a present file whose content fails JSON decoding,
    FileData.goodJson o a present file holding the JSON object o.  save
    counts its invocations in saveCount so that save-call multiplicity is
    observable.
  - Dotty indexing along a dotted path that meets a list value is outside
    every claim; the model reports it as a path type error.
  - ui.dialog.show_dialog is code of the repository that is not under src/;
    it is modelled from the spec near its use site below.
-/

namespace PyHelpers

/-- JSON value, the shape stored in the options tree and the defaults tree. -/
inductive JVal : Type where
  | null : JVal
  | bool (b : Bool) : JVal
  | num (n : Int) : JVal
  | str (s : String) : JVal
  | arr (elems : List JVal) : JVal
  | obj (entries : List (String × JVal)) : JVal

/-- Python dict with String keys and JSON values, as an association list in
insertion order. -/
abbrev Obj : Type := List (String × JVal)

/-- Python dict lookup: the first binding of the key, if any. -/
def alFind : Obj → String → Option JVal
  | [], _ => none
  | (k0, v0) :: rest, key => if k0 = key then some v0 else alFind rest key

/-- Python dict assignment d[key] = value: replace the binding in place when
the key is present, append a new binding otherwise. -/
def alInsert : Obj → String → JVal → Obj
  | [], key, value => [(key, value)]
  | (k0, v0) :: rest, key, value =>
    if k0 = key then (k0, value) :: rest else (k0, v0) :: alInsert rest key value

/-- Boolean test that the first character list is an initial segment of the
second. -/
def charsPrefix : List Char → List Char → Bool
  | [], _ => true
  | _ :: _, [] => false
  | a :: as, b :: bs => a = b && charsPrefix as bs

/-- Boolean substring test on character lists, the meaning of the Python
expression `small in big` for strings. -/
def charsInfix (p : List Char) : List Char → Bool
  | [] => charsPrefix p []
  | c :: t => charsPrefix p (c :: t) || charsInfix p t

/-- Split on the separator ".", the meaning of Dotty._split for keys without
escape characters; it agrees with the Python str.split(".") and never
returns the empty list. -/
def splitCharsAux : List Char → List Char → List String
  | [], acc => [String.mk acc.reverse]
  | c :: rest, acc =>
    if c = '.' then String.mk acc.reverse :: splitCharsAux rest []
    else splitCharsAux rest (c :: acc)

/-- Dotted-path key split into its segments. -/
def dottySplit (s : String) : List String := splitCharsAux s.data []

/-- Python ".".join(segments), used by Config.push and Config.fetch to
normalize the tuple form of a path. -/
def joinDot : List String → String
  | [] => ""
  | [s] => s
  | s :: t :: rest => s ++ "." ++ joinDot (t :: rest)

/-- Errors of the dotty primitives: KeyError from a missing dict key,
TypeError from indexing or membership-testing a value that does not support
it. -/
inductive PErr : Type where
  | keyError : PErr
  | typeError : PErr
deriving DecidableEq

/-- Python equality of a string with a JSON value: true exactly on an equal
string (Python == between a str and a value of another JSON type is false). -/
def strEq (k : String) : JVal → Bool
  | .str s => k = s
  | _ => false

/-- Python membership test `k in v` as it behaves on JSON values: key test on
a dict, substring test on a string, element test on a list, TypeError on
null, booleans and numbers. -/
def inOp (k : String) (v : JVal) : Except PErr Bool :=
  match v with
  | .obj entries => .ok (alFind entries k).isSome
  | .str s => .ok (charsInfix k.data s.data)
  | .arr elems => .ok (elems.any (strEq k))
  | _ => .error .typeError

/-- Dotty.__contains__ (search_in): pop the first segment; when it is a
member and further segments remain, recurse into the value indexed by it
(indexing a non-dict raises TypeError); otherwise answer the membership test
on the current value. -/
def containsSeg : List String → JVal → Except PErr Bool
  | [], _ => .error .typeError
  | [k], v => inOp k v
  | k :: k2 :: rest, .obj entries =>
    match alFind entries k with
    | some child => containsSeg (k2 :: rest) child
    | none => .ok false
  | k :: _ :: _, .str s =>
    if charsInfix k.data s.data then .error .typeError else .ok false
  | k :: _ :: _, .arr elems =>
    if elems.any (strEq k) then .error .typeError
    else .ok false
  | _ :: _ :: _, .null => .error .typeError
  | _ :: _ :: _, .bool _ => .error .typeError
  | _ :: _ :: _, .num _ => .error .typeError

/-- Dotty.__getitem__ (get_from): index the current value by each segment in
turn; a missing dict key raises KeyError, indexing a non-dict raises
TypeError (list indexing is outside the claims, see the header note). -/
def getSeg : List String → JVal → Except PErr JVal
  | [], v => .ok v
  | k :: rest, .obj entries =>
    match alFind entries k with
    | some child => getSeg rest child
    | none => .error .keyError
  | _ :: _, _ => .error .typeError

/-- Dotty.__setitem__ (set_to): walk the segments, creating an empty dict at
a missing intermediate key, and assign the value at the last segment; a
non-dict met on the way raises TypeError before any mutation happens. -/
def setSeg : List String → JVal → Obj → Except PErr Obj
  | [], _, _ => .error .typeError
  | [k], value, entries => .ok (alInsert entries k value)
  | k :: k2 :: rest, value, entries =>
    match alFind entries k with
    | none =>
      match setSeg (k2 :: rest) value [] with
      | .ok child => .ok (alInsert entries k (.obj child))
      | .error e => .error e
    | some (.obj childEntries) =>
      match setSeg (k2 :: rest) value childEntries with
      | .ok child => .ok (alInsert entries k (.obj child))
      | .error e => .error e
    | some _ => .error .typeError

/-- Membership of a dotted key in a Dotty wrapping the object o. -/
def dottyContains (o : Obj) (key : String) : Except PErr Bool :=
  containsSeg (dottySplit key) (.obj o)

/-- Dotty.get: the item at the dotted key, or the default when the lookup
raises KeyError; a TypeError is not caught there. -/
def dottyGet (o : Obj) (key : String) (default : JVal) : Except PErr JVal :=
  match getSeg (dottySplit key) (.obj o) with
  | .ok v => .ok v
  | .error .keyError => .ok default
  | .error .typeError => .error .typeError

/-- Dotty item assignment at a dotted key. -/
def dottySet (o : Obj) (key : String) (value : JVal) : Except PErr Obj :=
  setSeg (dottySplit key) value o

/-- Exceptions of the Config methods: FileNotFoundError, json.JSONDecodeError
(caught inside load and never propagated), the empty-defaults Exception of
try_defaults, and the dict KeyError and TypeError of the dotty layer. -/
inductive Exn : Type where
  | fileNotFound : Exn
  | decodeError : Exn
  | emptyDefaults : Exn
  | keyError : Exn
  | typeError : Exn
deriving DecidableEq

/-- Injection of the dotty-layer errors into the Config exception type. -/
def PErr.toExn : PErr → Exn
  | .keyError => .keyError
  | .typeError => .typeError

/-- Content of the file at the configured location: a decodable JSON object
or undecodable bytes. -/
inductive FileData : Type where
  | goodJson (o : Obj) : FileData
  | badJson : FileData

/-- State of one Config instance together with the file at its configured
location (the location string itself never varies in any claim, so the file
slot stands for the content at that location; none means no file exists).
saveCount counts the save invocations performed so far. -/
structure Config : Type where
  opt : Obj
  defaults : Obj
  file : Option FileData
  saveCount : Nat

/-- Path argument of push and fetch: a dotted string or a tuple of
segments. -/
inductive PathArg : Type where
  | str (s : String) : PathArg
  | tuple (segs : List String) : PathArg
deriving DecidableEq

/-- Normalization performed at the top of push and fetch: a tuple is joined
with "." into the string form, a string passes through. -/
def PathArg.normalize : PathArg → String
  | .str s => s
  | .tuple segs => joinDot segs

/-- Config.get_defaults. -/
def Config.get_defaults (c : Config) : Obj := c.defaults

/-- Config.set_defaults. -/
def Config.set_defaults (c : Config) (d : Obj) : Config := { c with defaults := d }

/-- Config.push: normalize the path and assign the value at it in the options
tree (the diagnostic print has no modelled effect); no save happens. -/
def Config.push (c : Config) (object : PathArg) (value : JVal) : Except Exn Config :=
  match dottySet c.opt object.normalize value with
  | .ok o => .ok { c with opt := o }
  | .error e => .error e.toExn

/-- Config.fetch: normalize the path; when the passed default is None, replace
it by the plain-dict lookup of the normalized key in the defaults tree (None
when absent); then answer the Dotty.get of the options tree with that
default.  The Python default parameter value is None, so calling fetch
without a default is calling it with JVal.null. -/
def Config.fetch (c : Config) (object : PathArg) (default : JVal) : Except Exn JVal :=
  let key := object.normalize
  let d := match default with
           | JVal.null => (alFind c.get_defaults key).getD JVal.null
           | _ => default
  match dottyGet c.opt key d with
  | .ok v => .ok v
  | .error e => .error e.toExn

/-- Config.save: serialize the options tree over the file at the location and
count the invocation. -/
def Config.save (c : Config) : Config :=
  { c with file := some (.goodJson c.opt), saveCount := c.saveCount + 1 }

/-- Loop body of Config.try_defaults over the items of the defaults dict in
order: a key not contained in the options tree (dotted containment) is
assigned (dotted assignment) and counted.  The count is positive exactly when
the should_save flag of the source ends up true. -/
def tdLoop : Obj → Obj → Except PErr (Obj × Nat)
  | [], o => .ok (o, 0)
  | (k, v) :: rest, o =>
    match dottyContains o k with
    | .error e => .error e
    | .ok true => tdLoop rest o
    | .ok false =>
      match dottySet o k v with
      | .error e => .error e
      | .ok o1 =>
        match tdLoop rest o1 with
        | .error e => .error e
        | .ok (o2, n) => .ok (o2, n + 1)

/-- Config.try_defaults: with an empty defaults dict, raise when
raise_exception is true and return 0 otherwise; else run the merge loop and
save exactly when at least one key was written.  The Python default of
raise_exception is true. -/
def Config.try_defaults (c : Config) (raise_exception : Bool) : Except Exn (Config × Nat) :=
  if c.defaults.length < 1 then
    if raise_exception then .error .emptyDefaults else .ok (c, 0)
  else
    match tdLoop c.defaults c.opt with
    | .error e => .error e.toExn
    | .ok (o, n) =>
      let c' : Config := { c with opt := o }
      if 0 < n then .ok (c'.save, n) else .ok (c', n)

/-- Modelled from the spec: ui.dialog.show_dialog, a module of this
repository that is not under src/.  The collaborator eventually invokes the
callback with the yes/no choice of the user, or never invokes it when the
user abandons the dialog; response = none models the latter, in which case
the state is left as it was. -/
def show_dialog (response : Option Bool) (callback : Bool → Config) (unchanged : Config) : Config :=
  match response with
  | some b => callback b
  | none => unchanged

/-- Config.load: a missing file raises FileNotFoundError; a decodable file
replaces the options tree; an undecodable file is caught, and then either
(overwrite_regardless true) the options tree is reset to empty and
try_defaults is invoked with its default raise_exception = true, or
(overwrite_regardless false) show_dialog is invoked with the callback that
saves on yes and does nothing on no.  The assignment of the parsed JSON
happens only on decode success, so on the caught decode error the options
tree keeps its previous value.  The Python default of overwrite_regardless
is false. -/
def Config.load (c : Config) (overwrite_regardless : Bool) (dialogResponse : Option Bool) :
    Except Exn Config :=
  match c.file with
  | none => .error .fileNotFound
  | some (.goodJson o) => .ok { c with opt := o }
  | some .badJson =>
    if overwrite_regardless then
      match Config.try_defaults { c with opt := [] } true with
      | .ok (c1, _) => .ok c1
      | .error e => .error e
    else
      .ok (show_dialog dialogResponse (fun x => if x then c.save else c) c)

/-- Config.load_and_put_defaults: load with the default arguments, then
try_defaults with raise_exception false; only FileNotFoundError is caught,
and on it the current options tree is saved (the written-count prints have no
modelled effect). -/
def Config.load_and_put_defaults (c : Config) (dialogResponse : Option Bool) :
    Except Exn Config :=
  match c.load false dialogResponse with
  | .error .fileNotFound => .ok c.save
  | .error e => .error e
  | .ok c1 =>
    match c1.try_defaults false with
    | .error e => .error e
    | .ok (c2, _written) => .ok c2

/-! Lemmas about the dictionary primitives. -/

theorem alFind_alInsert_self (l : Obj) (k : String) (v : JVal) :
    alFind (alInsert l k v) k = some v := by
  induction l with
  | nil => simp [alInsert, alFind]
  | cons hd tl ih =>
    obtain ⟨k0, v0⟩ := hd
    by_cases h : k0 = k
    · subst h; simp [alInsert, alFind]
    · simp [alInsert, alFind, h, ih]

theorem alFind_alInsert_ne (l : Obj) (k k' : String) (v : JVal) (h : k ≠ k') :
    alFind (alInsert l k v) k' = alFind l k' := by
  induction l with
  | nil => simp [alInsert, alFind, h]
  | cons hd tl ih =>
    obtain ⟨k0, v0⟩ := hd
    by_cases h0 : k0 = k
    · subst h0
      have hne : k0 ≠ k' := h
      simp [alInsert, alFind, hne]
    · simp [alInsert, alFind, h0, ih]

theorem alInsert_of_alFind_none (l : Obj) (k : String) (v : JVal)
    (h : alFind l k = none) : alInsert l k v = l ++ [(k, v)] := by
  induction l with
  | nil => simp [alInsert]
  | cons hd tl ih =>
    obtain ⟨k0, v0⟩ := hd
    by_cases h0 : k0 = k
    · subst h0; simp [alFind] at h
    · simp [alFind, h0] at h
      simp [alInsert, h0, ih h]

theorem alFind_append_of_none (l : Obj) (k key : String) (v : JVal)
    (h : alFind l key = none) :
    alFind (l ++ [(k, v)]) key = if k = key then some v else none := by
  induction l with
  | nil => simp [alFind]
  | cons hd tl ih =>
    obtain ⟨k0, v0⟩ := hd
    by_cases h0 : k0 = key
    · subst h0; simp [alFind] at h
    · simp [alFind, h0] at h
      simp [alFind, h0, ih h]

/-! Lemmas about the dotty path primitives. -/

theorem getSeg_setSeg (items : List String) (value : JVal) :
    ∀ o o1, setSeg items value o = .ok o1 → getSeg items (.obj o1) = .ok value := by
  induction items with
  | nil => intro o o1 h; simp [setSeg] at h
  | cons k rest ih =>
    intro o o1 h
    cases rest with
    | nil =>
      simp only [setSeg, Except.ok.injEq] at h
      subst h
      simp [getSeg, alFind_alInsert_self]
    | cons k2 rest2 =>
      simp only [setSeg] at h
      split at h
      · -- alFind o k = none
        split at h
        next child hs =>
          simp only [Except.ok.injEq] at h
          subst h
          simp [getSeg, alFind_alInsert_self]
          exact ih [] child hs
        next e hs => cases h
      · -- alFind o k = some (.obj childEntries)
        split at h
        next child hs =>
          simp only [Except.ok.injEq] at h
          subst h
          simp [getSeg, alFind_alInsert_self]
          exact ih _ child hs
        next e hs => cases h
      · -- alFind o k = some non-obj
        cases h

theorem setSeg_prefix_obj (items : List String) (value : JVal) :
    ∀ o o1, setSeg items value o = .ok o1 →
      ∀ p q, items = p ++ q → p ≠ [] → q ≠ [] →
        ∃ entries, getSeg p (.obj o1) = .ok (JVal.obj entries) := by
  induction items with
  | nil => intro o o1 h; simp [setSeg] at h
  | cons k rest ih =>
    intro o o1 h p q hpq hp hq
    cases p with
    | nil => exact absurd rfl hp
    | cons a ps =>
      simp only [List.cons_append, List.cons.injEq] at hpq
      obtain ⟨ha, hrest⟩ := hpq
      subst ha
      cases rest with
      | nil =>
        have : ps = [] ∧ q = [] := List.append_eq_nil.mp hrest.symm
        exact absurd this.2 hq
      | cons k2 rest2 =>
        simp only [setSeg] at h
        split at h
        · split at h
          next child hs =>
            simp only [Except.ok.injEq] at h
            subst h
            cases ps with
            | nil =>
              refine ⟨child, ?_⟩
              simp [getSeg, alFind_alInsert_self]
            | cons b ps2 =>
              obtain ⟨entries, hge⟩ :=
                ih [] child hs (b :: ps2) q hrest (by simp) hq
              refine ⟨entries, ?_⟩
              simp only [getSeg, alFind_alInsert_self]
              exact hge
          next e hs => cases h
        · split at h
          next child hs =>
            simp only [Except.ok.injEq] at h
            subst h
            cases ps with
            | nil =>
              refine ⟨child, ?_⟩
              simp [getSeg, alFind_alInsert_self]
            | cons b ps2 =>
              obtain ⟨entries, hge⟩ :=
                ih _ child hs (b :: ps2) q hrest (by simp) hq
              refine ⟨entries, ?_⟩
              simp only [getSeg, alFind_alInsert_self]
              exact hge
          next e hs => cases h
        · cases h

theorem setSeg_frame (items : List String) (value : JVal) :
    ∀ o o1, containsSeg items (.obj o) = .ok false → setSeg items value o = .ok o1 →
      ∀ q w, getSeg q (.obj o) = .ok w → (∀ e, w ≠ .obj e) → getSeg q (.obj o1) = .ok w := by
  induction items with
  | nil => intro o o1 hc h; simp [setSeg] at h
  | cons k rest ih =>
    intro o o1 hc h q w hq hw
    cases rest with
    | nil =>
      simp only [containsSeg, inOp, Except.ok.injEq] at hc
      have hnone : alFind o k = none := by
        cases hfk : alFind o k with
        | none => rfl
        | some _ => rw [hfk] at hc; simp at hc
      simp only [setSeg, Except.ok.injEq] at h
      subst h
      cases q with
      | nil =>
        simp only [getSeg, Except.ok.injEq] at hq
        exact absurd hq.symm (hw o)
      | cons k' qr =>
        simp only [getSeg] at hq ⊢
        by_cases hk : k' = k
        · subst hk; rw [hnone] at hq; exact absurd hq (by simp)
        · rw [alFind_alInsert_ne o k k' value (fun hh => hk hh.symm)]
          exact hq
    | cons k2 rest2 =>
      simp only [setSeg] at h
      split at h
      next hfk =>
        -- the key k is absent from o and a fresh chain of dicts is created
        split at h
        next child hs =>
          simp only [Except.ok.injEq] at h
          subst h
          cases q with
          | nil =>
            simp only [getSeg, Except.ok.injEq] at hq
            exact absurd hq.symm (hw o)
          | cons k' qr =>
            simp only [getSeg] at hq ⊢
            by_cases hk : k' = k
            · subst hk; rw [hfk] at hq; exact absurd hq (by simp)
            · rw [alFind_alInsert_ne o k k' _ (fun hh => hk hh.symm)]
              exact hq
        next e hs => cases h
      next ce hfk =>
        -- the key k holds a dict and the assignment recurses into it
        have hc' : containsSeg (k2 :: rest2) (.obj ce) = .ok false := by
          simp only [containsSeg, hfk] at hc
          exact hc
        split at h
        next child hs =>
          simp only [Except.ok.injEq] at h
          subst h
          cases q with
          | nil =>
            simp only [getSeg, Except.ok.injEq] at hq
            exact absurd hq.symm (hw o)
          | cons k' qr =>
            by_cases hk : k' = k
            · subst hk
              simp only [getSeg, hfk] at hq
              simp only [getSeg, alFind_alInsert_self]
              exact ih ce child hc' hs qr w hq hw
            · simp only [getSeg] at hq ⊢
              rw [alFind_alInsert_ne o k k' _ (fun hh => hk hh.symm)]
              exact hq
        next e hs => cases h
      next x hfk hne => cases h

/-! Lemmas about the merge loop of try_defaults. -/

theorem tdLoop_frame (d : Obj) :
    ∀ o o1 n, tdLoop d o = .ok (o1, n) →
      ∀ q w, getSeg q (.obj o) = .ok w → (∀ e, w ≠ .obj e) → getSeg q (.obj o1) = .ok w := by
  induction d with
  | nil =>
    intro o o1 n h q w hq hw
    simp only [tdLoop, Except.ok.injEq, Prod.mk.injEq] at h
    rw [← h.1]
    exact hq
  | cons kv rest ih =>
    obtain ⟨k, v⟩ := kv
    intro o o1 n h q w hq hw
    simp only [tdLoop] at h
    split at h
    next e hck => cases h
    next hck => exact ih o o1 n h q w hq hw
    next hck =>
      split at h
      next e hset => cases h
      next om hset =>
        split at h
        next e hrest => cases h
        next o2 m hrest =>
          simp only [Except.ok.injEq, Prod.mk.injEq] at h
          have hq1 : getSeg q (.obj om) = .ok w :=
            setSeg_frame (dottySplit k) v o om hck hset q w hq hw
          rw [← h.1]
          exact ih om o2 m hrest q w hq1 hw

theorem tdLoop_all_present (d : Obj) :
    ∀ o, (∀ kv ∈ d, dottyContains o kv.1 = .ok true) → tdLoop d o = .ok (o, 0) := by
  induction d with
  | nil => intro o _; rfl
  | cons kv rest ih =>
    obtain ⟨k, v⟩ := kv
    intro o h
    have hk := h (k, v) (List.mem_cons_self _ _)
    simp only [tdLoop, hk]
    exact ih o (fun kv hm => h kv (List.mem_cons_of_mem _ hm))

theorem tdLoop_zero_unchanged (d : Obj) :
    ∀ o o1, tdLoop d o = .ok (o1, 0) → o1 = o := by
  induction d with
  | nil =>
    intro o o1 h
    simp only [tdLoop, Except.ok.injEq, Prod.mk.injEq] at h
    exact h.1.symm
  | cons kv rest ih =>
    obtain ⟨k, v⟩ := kv
    intro o o1 h
    simp only [tdLoop] at h
    split at h
    next e hck => cases h
    next hck => exact ih o o1 h
    next hck =>
      split at h
      next e hset => cases h
      next om hset =>
        split at h
        next e hrest => cases h
        next o2 m hrest =>
          simp only [Except.ok.injEq, Prod.mk.injEq] at h
          exact absurd h.2 (Nat.succ_ne_zero m)

theorem tdLoop_count (d : Obj) :
    ∀ o o1 n, (d.map Prod.fst).Nodup → (∀ kv ∈ d, dottySplit kv.1 = [kv.1]) →
      tdLoop d o = .ok (o1, n) →
      n = (d.filter (fun kv => (alFind o kv.1).isNone)).length := by
  induction d with
  | nil =>
    intro o o1 n _ _ h
    simp only [tdLoop, Except.ok.injEq, Prod.mk.injEq] at h
    simp [← h.2]
  | cons kv rest ih =>
    obtain ⟨k, v⟩ := kv
    intro o o1 n hnd hsp h
    have hndr : (rest.map Prod.fst).Nodup := (List.nodup_cons.mp hnd).2
    have hnmem : k ∉ rest.map Prod.fst := (List.nodup_cons.mp hnd).1
    have hspr : ∀ kv ∈ rest, dottySplit kv.1 = [kv.1] :=
      fun kv hm => hsp kv (List.mem_cons_of_mem _ hm)
    have hspk : dottySplit k = [k] := hsp (k, v) (List.mem_cons_self _ _)
    have hck : dottyContains o k = .ok (alFind o k).isSome := by
      simp [dottyContains, hspk, containsSeg, inOp]
    simp only [tdLoop] at h
    cases hfk : alFind o k with
    | some w0 =>
      rw [hfk] at hck
      rw [hck] at h
      simp only [Option.isSome_some] at h
      have := ih o o1 n hndr hspr h
      simp only [List.filter_cons, hfk, Option.isNone_some, Bool.false_eq_true,
        if_false, cond_false]
      exact this
    | none =>
      rw [hfk] at hck
      rw [hck] at h
      simp only [Option.isSome_none] at h
      have hset : dottySet o k v = .ok (alInsert o k v) := by
        simp [dottySet, hspk, setSeg]
      simp only [hset] at h
      split at h
      next e hrest => cases h
      next o2 m hrest =>
        simp only [Except.ok.injEq, Prod.mk.injEq] at h
        have hm := ih (alInsert o k v) o2 m hndr hspr hrest
        have hfc : rest.filter (fun kv => (alFind (alInsert o k v) kv.1).isNone) =
            rest.filter (fun kv => (alFind o kv.1).isNone) := by
          apply List.filter_congr
          intro kv hmem
          have hkne : k ≠ kv.1 := by
            intro hh
            exact hnmem (hh ▸ List.mem_map_of_mem Prod.fst hmem)
          rw [alFind_alInsert_ne o k kv.1 v hkne]
        rw [hfc] at hm
        simp only [List.filter_cons, hfk, Option.isNone_none, if_true, cond_true]
        rw [← h.2, hm]
        simp [Nat.add_comm]

theorem tdLoop_fresh (d : Obj) :
    ∀ o, (d.map Prod.fst).Nodup → (∀ kv ∈ d, dottySplit kv.1 = [kv.1]) →
      (∀ kv ∈ d, alFind o kv.1 = none) →
      tdLoop d o = .ok (o ++ d, d.length) := by
  induction d with
  | nil => intro o _ _ _; simp [tdLoop]
  | cons kv rest ih =>
    obtain ⟨k, v⟩ := kv
    intro o hnd hsp habs
    have hndr : (rest.map Prod.fst).Nodup := (List.nodup_cons.mp hnd).2
    have hnmem : k ∉ rest.map Prod.fst := (List.nodup_cons.mp hnd).1
    have hspr : ∀ kv ∈ rest, dottySplit kv.1 = [kv.1] :=
      fun kv hm => hsp kv (List.mem_cons_of_mem _ hm)
    have hspk : dottySplit k = [k] := hsp (k, v) (List.mem_cons_self _ _)
    have hfk : alFind o k = none := habs (k, v) (List.mem_cons_self _ _)
    have hck : dottyContains o k = .ok false := by
      simp [dottyContains, hspk, containsSeg, inOp, hfk]
    have hset : dottySet o k v = .ok (alInsert o k v) := by
      simp [dottySet, hspk, setSeg]
    have hins : alInsert o k v = o ++ [(k, v)] := alInsert_of_alFind_none o k v hfk
    have habsr : ∀ kv ∈ rest, alFind (o ++ [(k, v)]) kv.1 = none := by
      intro kv hmem
      have hkne : k ≠ kv.1 := by
        intro hh
        exact hnmem (hh ▸ List.mem_map_of_mem Prod.fst hmem)
      rw [alFind_append_of_none o k kv.1 v (habs kv (List.mem_cons_of_mem _ hmem))]
      simp [hkne]
    have hrest := ih (o ++ [(k, v)]) hndr hspr habsr
    simp only [tdLoop, hck, hset, hins, hrest]
    simp

/-- Helper: try_defaults can raise the empty-defaults error or a dotty-layer
error, but never the decode error. -/
theorem try_defaults_no_decode_error (c : Config) (re : Bool) :
    c.try_defaults re ≠ .error .decodeError := by
  rw [Config.try_defaults]
  split
  · split
    · intro hh; injection hh with h2; cases h2
    · intro hh; cases hh
  · split
    next e heq => cases e <;> (intro hh; injection hh with h2; cases h2)
    next o n heq => split <;> (intro hh; cases hh)

/-- C1: for every path P, given as a dotted string or as a tuple of segments,
and every value V, whenever push(P, V) completes it stores V so that fetch(P)
returns V, and the tuple form behaves exactly as the string form obtained by
joining the segments with "." (the normalized form), both on push and on
fetch. -/
theorem push_fetch_roundtrip (c c' : Config) (p : PathArg) (v : JVal)
    (h : c.push p v = .ok c') :
    c'.fetch p JVal.null = .ok v ∧
    c.push (.str p.normalize) v = .ok c' ∧
    c'.fetch (.str p.normalize) JVal.null = .ok v := by
  rw [Config.push] at h
  split at h
  next o hset =>
    simp only [Except.ok.injEq] at h
    subst h
    have hget : getSeg (dottySplit p.normalize) (.obj o) = .ok v :=
      getSeg_setSeg (dottySplit p.normalize) v c.opt o hset
    have hnorm : PathArg.normalize (.str p.normalize) = p.normalize := rfl
    refine ⟨?_, ?_, ?_⟩
    · simp [Config.fetch, dottyGet, hget]
    · simp [Config.push, hnorm, hset]
    · simp [Config.fetch, hnorm, dottyGet, hget]
  next e hset => cases h

/-- Concrete configs for the C1 witness, matching the docstring example of
push. -/
def c1Start : Config := { opt := [], defaults := [], file := none, saveCount := 0 }

def c1End : Config :=
  { opt := [("dict", .obj [("objectname", .num 42)])], defaults := [],
    file := none, saveCount := 0 }

/-- C1 witness at the concrete tuple path ("dict", "objectname") and value
42. -/
theorem push_fetch_roundtrip_witness :
    c1Start.push (.tuple ["dict", "objectname"]) (.num 42) = .ok c1End ∧
    c1End.fetch (.tuple ["dict", "objectname"]) JVal.null = .ok (.num 42) ∧
    c1End.fetch (.str "dict.objectname") JVal.null = .ok (.num 42) :=
  ⟨rfl,
   (push_fetch_roundtrip c1Start c1End (.tuple ["dict", "objectname"]) (.num 42) rfl).1,
   (push_fetch_roundtrip c1Start c1End (.tuple ["dict", "objectname"]) (.num 42) rfl).2.2⟩

/-- C4: with an empty defaults tree, try_defaults raises the empty-defaults
error exactly when raise_exception is true, and with it false returns 0 and
the state untouched (same options tree, same file, no save). -/
theorem try_defaults_empty_defaults (c : Config) (h : c.defaults = []) :
    c.try_defaults true = .error .emptyDefaults ∧
    c.try_defaults false = .ok (c, 0) := by
  constructor <;> simp [Config.try_defaults, h]

/-- C4 witness on a config with an empty defaults tree. -/
theorem try_defaults_empty_defaults_witness :
    ({ opt := [("x", .num 3)], defaults := [], file := none, saveCount := 0 } : Config).defaults
        = [] ∧
    ({ opt := [("x", .num 3)], defaults := [], file := none, saveCount := 0 } : Config).try_defaults
        true = .error .emptyDefaults ∧
    ({ opt := [("x", .num 3)], defaults := [], file := none, saveCount := 0 } : Config).try_defaults
        false = .ok ({ opt := [("x", .num 3)], defaults := [], file := none, saveCount := 0 }, 0) :=
  ⟨rfl,
   (try_defaults_empty_defaults _ rfl).1,
   (try_defaults_empty_defaults _ rfl).2⟩

/-- C7: save() followed by load() reproduces the options tree held before the
save (the model stores JSON-representable trees exactly, so the equality is
on the nose). -/
theorem save_load_roundtrip (c : Config) :
    ∃ c', (c.save).load false none = .ok c' ∧ c'.opt = c.opt ∧
      c'.defaults = c.defaults :=
  ⟨c.save, rfl, rfl, rfl⟩

/-- C8: push writes the value at the dotted path in the options tree, every
strict prefix of the path points at a nested mapping afterwards, and the
file, the save count and the defaults tree are untouched (no save). -/
theorem push_no_save (c c' : Config) (p : PathArg) (v : JVal)
    (h : c.push p v = .ok c') :
    c'.file = c.file ∧ c'.saveCount = c.saveCount ∧ c'.defaults = c.defaults ∧
    setSeg (dottySplit p.normalize) v c.opt = .ok c'.opt ∧
    getSeg (dottySplit p.normalize) (.obj c'.opt) = .ok v ∧
    (∀ pre post, dottySplit p.normalize = pre ++ post → pre ≠ [] → post ≠ [] →
      ∃ entries, getSeg pre (.obj c'.opt) = .ok (JVal.obj entries)) := by
  rw [Config.push] at h
  split at h
  next o hset =>
    simp only [Except.ok.injEq] at h
    subst h
    refine ⟨rfl, rfl, rfl, hset, getSeg_setSeg _ v c.opt o hset, ?_⟩
    intro pre post hpq hp hq
    exact setSeg_prefix_obj (dottySplit p.normalize) v c.opt o hset pre post hpq hp hq
  next e hset => cases h

/-- Concrete configs for the C8 witness. -/
def c8Start : Config :=
  { opt := [], defaults := [("d", .num 1)], file := none, saveCount := 0 }

def c8End : Config :=
  { opt := [("dict1", .obj [("dict2", .obj [("objectname", .bool true)])])],
    defaults := [("d", .num 1)], file := none, saveCount := 0 }

/-- C8 witness at the nested string path "dict1.dict2.objectname": the two
intermediate mappings are created and the file slot stays none. -/
theorem push_no_save_witness :
    c8Start.push (.str "dict1.dict2.objectname") (.bool true) = .ok c8End ∧
    c8End.file = none ∧
    getSeg (dottySplit "dict1.dict2.objectname") (.obj c8End.opt) = .ok (.bool true) :=
  ⟨rfl,
   (push_no_save c8Start c8End (.str "dict1.dict2.objectname") (.bool true) rfl).1,
   (push_no_save c8Start c8End (.str "dict1.dict2.objectname") (.bool true) rfl).2.2.2.2.1⟩

/-- C9: a caller-supplied default of null is indistinguishable from omitting
the default (the Python parameter default is None, which the model writes
JVal.null): on a path absent from the options tree, fetch with the null
default still answers the flat defaults-dict lookup, while any non-null
default suppresses the defaults tree and is returned as given. -/
theorem fetch_null_default_fallback (c : Config) (p : PathArg)
    (hmiss : getSeg (dottySplit p.normalize) (.obj c.opt) = .error .keyError) :
    c.fetch p JVal.null = .ok ((alFind c.defaults p.normalize).getD JVal.null) ∧
    (∀ d : JVal, d ≠ JVal.null → c.fetch p d = .ok d) := by
  constructor
  · simp [Config.fetch, Config.get_defaults, dottyGet, hmiss]
  · intro d hd
    cases d with
    | null => exact absurd rfl hd
    | bool b => simp [Config.fetch, dottyGet, hmiss]
    | num n => simp [Config.fetch, dottyGet, hmiss]
    | str s => simp [Config.fetch, dottyGet, hmiss]
    | arr elems => simp [Config.fetch, dottyGet, hmiss]
    | obj entries => simp [Config.fetch, dottyGet, hmiss]

/-- Concrete config for the C9 witness. -/
def c9Cfg : Config :=
  { opt := [], defaults := [("x", .num 5)], file := none, saveCount := 0 }

/-- C9 witness: with "x" absent from the options tree and bound to 5 in the
defaults tree, fetch("x", null) answers 5 just as fetch("x") would, and
fetch("x", 0) answers 0. -/
theorem fetch_null_default_fallback_witness :
    getSeg (dottySplit (PathArg.normalize (.str "x"))) (.obj c9Cfg.opt) =
      .error .keyError ∧
    c9Cfg.fetch (.str "x") JVal.null = .ok (.num 5) ∧
    c9Cfg.fetch (.str "x") (.num 0) = .ok (.num 0) :=
  ⟨rfl,
   (fetch_null_default_fallback c9Cfg (.str "x") rfl).1,
   (fetch_null_default_fallback c9Cfg (.str "x") rfl).2 (.num 0) (by simp)⟩

/-- Concrete config for the C2 counterexample: empty options tree, defaults
tree storing app.test_thing as nested mappings, exactly the docstring
example. -/
def c2Cfg : Config :=
  { opt := [], defaults := [("app", .obj [("test_thing", .bool true)])],
    file := none, saveCount := 0 }

/-- C2 counterexample: the dotted path "app.test_thing" resolves to true in
the defaults tree by nested lookup, yet fetch with no stored value and no
explicit default answers null, because the fallback is a flat top-level
lookup of the joined string in the defaults dict, not a nested path
lookup. -/
theorem fetch_defaults_nested_cex :
    getSeg (dottySplit "app.test_thing") (.obj c2Cfg.defaults) = .ok (.bool true) ∧
    getSeg (dottySplit "app.test_thing") (.obj c2Cfg.opt) = .error .keyError ∧
    c2Cfg.fetch (.str "app.test_thing") JVal.null = .ok JVal.null ∧
    JVal.null ≠ JVal.bool true :=
  ⟨rfl, rfl, rfl, fun hh => JVal.noConfusion hh⟩

/-- C2 amended: fetch on a path with no stored value and no explicit default
returns the value bound to the joined path string as a single flat top-level
key of the defaults dict, or null when that flat key is absent; a nested
dotted path stored as nested mappings in the defaults tree is not consulted
(line 123 of config.py reads self.get_defaults().get(object) on the plain
dict). -/
theorem fetch_defaults_flat_lookup (c : Config) (p : PathArg)
    (hmiss : getSeg (dottySplit p.normalize) (.obj c.opt) = .error .keyError) :
    c.fetch p JVal.null = .ok ((alFind c.defaults p.normalize).getD JVal.null) := by
  simp [Config.fetch, Config.get_defaults, dottyGet, hmiss]

/-- Concrete config for the C2 amended witness: the defaults dict binds the
dotted string "app.x" as one flat key. -/
def c2FlatCfg : Config :=
  { opt := [], defaults := [("app.x", .num 3)], file := none, saveCount := 0 }

/-- C2 amended witness: fetch("app.x") with empty options answers the flat
defaults binding 3. -/
theorem fetch_defaults_flat_lookup_witness :
    getSeg (dottySplit (PathArg.normalize (.str "app.x"))) (.obj c2FlatCfg.opt) =
      .error .keyError ∧
    c2FlatCfg.fetch (.str "app.x") JVal.null = .ok (.num 3) :=
  ⟨rfl, fetch_defaults_flat_lookup c2FlatCfg (.str "app.x") rfl⟩

/-- Concrete config for the C5 counterexample: fresh store (empty options
tree), non-empty defaults tree, no file on disk. -/
def c5Cfg : Config :=
  { opt := [], defaults := [("a", .num 1)], file := none, saveCount := 0 }

/-- C5 counterexample: on a missing file, load_and_put_defaults does not
raise, but the file it creates contains the empty object (the current
options tree), not the non-empty defaults tree, because the
FileNotFoundError handler calls save() alone and never try_defaults. -/
theorem lapd_missing_file_cex :
    c5Cfg.load_and_put_defaults none =
      .ok { opt := [], defaults := [("a", .num 1)],
            file := some (.goodJson []), saveCount := 1 } ∧
    (FileData.goodJson [] ≠ FileData.goodJson c5Cfg.defaults) :=
  ⟨rfl, by simp [c5Cfg]⟩

/-- C5 amended: load on a missing file raises FileNotFound for either value
of overwrite_regardless, and the error propagates; load_and_put_defaults on
the same condition raises nothing and creates a file at the location
containing the current options tree (the empty object on a fresh store),
regardless of the defaults tree. -/
theorem load_missing_file_spec (c : Config) (hf : c.file = none) :
    (∀ ow resp, c.load ow resp = .error .fileNotFound) ∧
    (∀ resp, c.load_and_put_defaults resp = .ok c.save) ∧
    c.save.file = some (.goodJson c.opt) ∧
    c.save.opt = c.opt ∧
    c.save.saveCount = c.saveCount + 1 := by
  refine ⟨?_, ?_, rfl, rfl, rfl⟩
  · intro ow resp
    simp [Config.load, hf]
  · intro resp
    simp [Config.load_and_put_defaults, Config.load, hf]

/-- C5 amended witness on the fresh store with non-empty defaults. -/
theorem load_missing_file_spec_witness :
    c5Cfg.file = none ∧
    c5Cfg.load false none = .error .fileNotFound ∧
    c5Cfg.load_and_put_defaults none = .ok c5Cfg.save ∧
    c5Cfg.save.file = some (.goodJson []) :=
  ⟨rfl,
   (load_missing_file_spec c5Cfg rfl).1 false none,
   (load_missing_file_spec c5Cfg rfl).2.1 none,
   (load_missing_file_spec c5Cfg rfl).2.2.1⟩

/-- Concrete config for the C6 counterexample: an undecodable file and an
empty defaults tree. -/
def c6Cfg : Config :=
  { opt := [("old", .num 9)], defaults := [], file := some .badJson, saveCount := 0 }

/-- C6 counterexample: with the file present but undecodable, an empty
defaults tree and overwrite_on_decode_error true, load propagates the
empty-defaults error past itself, because line 144 of config.py calls
self.try_defaults() with its default raise_exception=True. -/
theorem load_bad_json_cex :
    c6Cfg.load true none = .error .emptyDefaults := rfl

/-- C6 amended: on an undecodable file the decode error itself is never
propagated past load; with overwrite_on_decode_error false, load defers to
the interactive collaborator and raises nothing (saving the previous options
tree on yes, doing nothing on no or on abandonment); with it true, load
resets the options tree to empty and delegates to try_defaults with
raise-on-empty true, so the result is exactly the try_defaults outcome: with
an empty defaults tree an EmptyDefaults error propagates, and with a
non-empty defaults tree of distinct dot-free keys the options tree becomes
the defaults tree and is saved. -/
theorem load_bad_json_spec (c : Config) (hf : c.file = some .badJson) :
    (∀ b resp, c.load b resp ≠ .error .decodeError) ∧
    (c.load false (some true) = .ok c.save ∧ c.load false (some false) = .ok c ∧
      c.load false none = .ok c) ∧
    (c.defaults = [] → ∀ resp, c.load true resp = .error .emptyDefaults) ∧
    (∀ resp, c.load true resp =
      (match Config.try_defaults { c with opt := [] } true with
       | .ok (c1, _) => .ok c1
       | .error e => .error e)) ∧
    ((c.defaults ≠ [] ∧ (c.defaults.map Prod.fst).Nodup ∧
        (∀ kv ∈ c.defaults, dottySplit kv.1 = [kv.1])) →
      ∀ resp, c.load true resp =
        .ok { c with
              opt := c.defaults,
              file := some (.goodJson c.defaults),
              saveCount := c.saveCount + 1 }) := by
  have hload : ∀ resp, c.load true resp =
      (match Config.try_defaults { c with opt := [] } true with
       | .ok (c1, _) => .ok c1
       | .error e => .error e) := by
    intro resp
    simp [Config.load, hf]
  refine ⟨?_, ⟨?_, ?_, ?_⟩, ?_, hload, ?_⟩
  · intro b resp
    cases b with
    | false =>
      cases resp with
      | none => simp [Config.load, hf, show_dialog]
      | some x => cases x <;> simp [Config.load, hf, show_dialog]
    | true =>
      rw [hload resp]
      split
      · simp
      next e heq =>
        intro hh
        injection hh with h2
        rw [h2] at heq
        exact try_defaults_no_decode_error _ _ heq
  · simp [Config.load, hf, show_dialog]
  · simp [Config.load, hf, show_dialog]
  · simp [Config.load, hf, show_dialog]
  · intro hde resp
    rw [hload resp]
    have h1 : Config.try_defaults { c with opt := [] } true = .error .emptyDefaults := by
      simp [Config.try_defaults, hde]
    simp [h1]
  · intro hcond resp
    obtain ⟨hne, hnd, hsp⟩ := hcond
    have hfresh : ∀ kv ∈ c.defaults, alFind ([] : Obj) kv.1 = none := by
      intro kv _; rfl
    have htd := tdLoop_fresh c.defaults [] hnd hsp hfresh
    have hpos : 0 < c.defaults.length := List.length_pos.mpr hne
    have hlen : ¬ c.defaults.length < 1 := by omega
    rw [hload resp]
    have h2 : Config.try_defaults { c with opt := [] } true =
        .ok ({ c with
               opt := c.defaults,
               file := some (.goodJson c.defaults),
               saveCount := c.saveCount + 1 }, c.defaults.length) := by
      simp [Config.try_defaults, hlen, htd, hpos, Config.save]
    simp [h2]

/-- Concrete config for the C6 amended witness: undecodable file, non-empty
defaults tree with one dot-free key. -/
def c6bCfg : Config :=
  { opt := [("old", .num 9)], defaults := [("a", .num 1)],
    file := some .badJson, saveCount := 0 }

/-- C6 amended witness: on the undecodable file, the dialog path saves the
previous tree on yes, the overwrite path installs and saves the defaults,
and no decode error ever escapes. -/
theorem load_bad_json_spec_witness :
    c6bCfg.file = some .badJson ∧
    c6bCfg.load false (some true) = .ok c6bCfg.save ∧
    c6bCfg.load true none =
      .ok { c6bCfg with
            opt := c6bCfg.defaults,
            file := some (.goodJson c6bCfg.defaults),
            saveCount := c6bCfg.saveCount + 1 } ∧
    c6bCfg.load true none ≠ .error .decodeError :=
  ⟨rfl,
   (load_bad_json_spec c6bCfg rfl).2.1.1,
   (load_bad_json_spec c6bCfg rfl).2.2.2.2
     ⟨by simp [c6bCfg], by simp [c6bCfg],
      by intro kv hm; simp [c6bCfg] at hm; subst hm; rfl⟩ none,
   (load_bad_json_spec c6bCfg rfl).1 true none⟩

/-- C3: with a non-empty defaults tree, whenever try_defaults completes with
count n it keeps the defaults tree, performs exactly one save when n is
positive (writing the final options tree to the file) and none when n is
zero (state fully unchanged), never overwrites any existing non-mapping
value reachable in the options tree, writes nothing when every defaults key
is already contained, and, for distinct dot-free keys, returns exactly the
number of defaults keys absent from the options tree. -/
theorem try_defaults_merge_spec (c : Config) (re : Bool) (c' : Config) (n : Nat)
    (hne : c.defaults ≠ [])
    (h : c.try_defaults re = .ok (c', n)) :
    c'.defaults = c.defaults ∧
    c'.saveCount = c.saveCount + (if 0 < n then 1 else 0) ∧
    (n = 0 → c' = c) ∧
    (0 < n → c'.file = some (.goodJson c'.opt)) ∧
    (∀ q w, getSeg q (.obj c.opt) = .ok w → (∀ e, w ≠ .obj e) →
      getSeg q (.obj c'.opt) = .ok w) ∧
    ((∀ kv ∈ c.defaults, dottyContains c.opt kv.1 = .ok true) → n = 0) ∧
    (((c.defaults.map Prod.fst).Nodup ∧ (∀ kv ∈ c.defaults, dottySplit kv.1 = [kv.1])) →
      n = (c.defaults.filter (fun kv => (alFind c.opt kv.1).isNone)).length) := by
  have hlen : ¬ c.defaults.length < 1 := by
    have := List.length_pos.mpr hne
    omega
  rw [Config.try_defaults, if_neg hlen] at h
  split at h
  next e heq => cases h
  next o m heq =>
    by_cases hm : 0 < m
    · rw [if_pos hm] at h
      simp only [Except.ok.injEq, Prod.mk.injEq] at h
      obtain ⟨hc', hn⟩ := h
      subst hn
      subst hc'
      refine ⟨rfl, by simp [Config.save, hm], ?_, ?_, ?_, ?_, ?_⟩
      · intro h0; omega
      · intro _; rfl
      · intro q w hq hw
        exact tdLoop_frame c.defaults c.opt o m heq q w hq hw
      · intro hall
        have := tdLoop_all_present c.defaults c.opt hall
        rw [this] at heq
        simp only [Except.ok.injEq, Prod.mk.injEq] at heq
        omega
      · intro ⟨hnd, hsp⟩
        exact tdLoop_count c.defaults c.opt o m hnd hsp heq
    · rw [if_neg hm] at h
      simp only [Except.ok.injEq, Prod.mk.injEq] at h
      obtain ⟨hc', hn⟩ := h
      subst hn
      have hm0 : m = 0 := by omega
      subst hm0
      have ho : o = c.opt := tdLoop_zero_unchanged c.defaults c.opt o heq
      subst ho
      subst hc'
      refine ⟨rfl, by simp, fun _ => rfl, ?_, ?_, fun _ => rfl, ?_⟩
      · intro hpos; omega
      · intro q w hq hw
        exact tdLoop_frame c.defaults c.opt c.opt 0 heq q w hq hw
      · intro ⟨hnd, hsp⟩
        exact tdLoop_count c.defaults c.opt c.opt 0 hnd hsp heq

/-- Concrete configs for the C3 witness: "keep" is present and stays bound to
5, "a" is absent and gets written, the count is 1 and one save happens. -/
def c3Start : Config :=
  { opt := [("keep", .num 5)], defaults := [("a", .num 1), ("keep", .num 9)],
    file := none, saveCount := 0 }

def c3End : Config :=
  { opt := [("keep", .num 5), ("a", .num 1)],
    defaults := [("a", .num 1), ("keep", .num 9)],
    file := some (.goodJson [("keep", .num 5), ("a", .num 1)]), saveCount := 1 }

/-- C3 witness: the merge writes only the absent key "a", keeps "keep" at 5
(the defaults value 9 does not overwrite it), reports count 1 and saves
once. -/
theorem try_defaults_merge_spec_witness :
    c3Start.defaults ≠ [] ∧
    c3Start.try_defaults false = .ok (c3End, 1) ∧
    c3End.saveCount = c3Start.saveCount + (if 0 < 1 then 1 else 0) ∧
    c3End.file = some (.goodJson c3End.opt) ∧
    getSeg ["keep"] (.obj c3End.opt) = .ok (.num 5) ∧
    (1 : Nat) =
      (c3Start.defaults.filter
        (fun kv => (alFind c3Start.opt kv.1).isNone)).length :=
  ⟨by simp [c3Start],
   rfl,
   (try_defaults_merge_spec c3Start false c3End 1 (by simp [c3Start]) rfl).2.1,
   (try_defaults_merge_spec c3Start false c3End 1 (by simp [c3Start]) rfl).2.2.2.1
     (by omega),
   (try_defaults_merge_spec c3Start false c3End 1 (by simp [c3Start]) rfl).2.2.2.2.1
     ["keep"] (.num 5) rfl (fun e hh => JVal.noConfusion hh),
   (try_defaults_merge_spec c3Start false c3End 1 (by simp [c3Start]) rfl).2.2.2.2.2.2
     ⟨by simp [c3Start], by
        intro kv hm
        simp [c3Start] at hm
        rcases hm with hm | hm <;> (subst hm; rfl)⟩⟩

/-- C10: a top-level defaults key that splits as a.b is treated by
try_defaults as a nested dotted path into the options tree: when the
first segment is absent or bound to a mapping, the membership check answers
presence of the nested b under a; writing the key creates the nested mapping
a containing b (the flat one-token key is not created: its top-level binding
is untouched); and when the nested value exists the key is skipped with
nothing written. -/
theorem try_defaults_dotted_key_nested (c : Config) (k a b : String) (v : JVal)
    (hd : c.defaults = [(k, v)])
    (hsplit : dottySplit k = [a, b])
    (hka : k ≠ a) :
    (alFind c.opt a = none → dottyContains c.opt k = .ok false) ∧
    (∀ sub, alFind c.opt a = some (.obj sub) →
      dottyContains c.opt k = .ok (alFind sub b).isSome) ∧
    (alFind c.opt a = none →
      c.try_defaults false =
        .ok (({ c with opt := alInsert c.opt a (.obj [(b, v)]) }).save, 1) ∧
      alFind (alInsert c.opt a (.obj [(b, v)])) k = alFind c.opt k ∧
      getSeg [a, b] (.obj (alInsert c.opt a (.obj [(b, v)]))) = .ok v) ∧
    (∀ sub, alFind c.opt a = some (.obj sub) → (alFind sub b).isSome →
      c.try_defaults false = .ok (c, 0)) := by
  refine ⟨?_, ?_, ?_, ?_⟩
  · intro hfa
    simp [dottyContains, hsplit, containsSeg, hfa]
  · intro sub hfa
    simp [dottyContains, hsplit, containsSeg, hfa, inOp]
  · intro hfa
    have hcont : dottyContains c.opt k = .ok false := by
      simp [dottyContains, hsplit, containsSeg, hfa]
    have hset : dottySet c.opt k v = .ok (alInsert c.opt a (.obj [(b, v)])) := by
      simp [dottySet, hsplit, setSeg, hfa, alInsert]
    have heq : tdLoop [(k, v)] c.opt =
        .ok (alInsert c.opt a (.obj [(b, v)]), 1) := by
      simp [tdLoop, hcont, hset]
    refine ⟨?_, ?_, ?_⟩
    · simp [Config.try_defaults, hd, heq]
    · exact alFind_alInsert_ne c.opt a k (.obj [(b, v)]) (fun hh => hka hh.symm)
    · simp [getSeg, alFind_alInsert_self, alFind]
  · intro sub hfa hpres
    have hcont : dottyContains c.opt k = .ok true := by
      simp [dottyContains, hsplit, containsSeg, hfa, inOp, hpres]
    have heq : tdLoop [(k, v)] c.opt = .ok (c.opt, 0) := by
      simp [tdLoop, hcont]
    simp [Config.try_defaults, hd, heq]
    rw [← hd]

/-- Concrete config for the C10 witness: the defaults tree holds the dotted
key "a.b" and the options tree lacks "a". -/
def c10Cfg : Config :=
  { opt := [("other", .num 0)], defaults := [("a.b", .num 2)],
    file := none, saveCount := 0 }

/-- C10 witness: the dotted defaults key "a.b" is judged absent, written as
the nested mapping a containing b, the flat key "a.b" stays unbound at top
level, and the count is 1. -/
theorem try_defaults_dotted_key_nested_witness :
    c10Cfg.defaults = [("a.b", JVal.num 2)] ∧
    dottySplit "a.b" = ["a", "b"] ∧
    alFind c10Cfg.opt "a" = none ∧
    alFind c10Cfg.opt "a.b" = none ∧
    dottyContains c10Cfg.opt "a.b" = .ok false ∧
    c10Cfg.try_defaults false =
      .ok (({ c10Cfg with
              opt := alInsert c10Cfg.opt "a" (.obj [("b", JVal.num 2)]) }).save, 1) ∧
    alFind (alInsert c10Cfg.opt "a" (.obj [("b", JVal.num 2)])) "a.b" =
      alFind c10Cfg.opt "a.b" ∧
    getSeg ["a", "b"]
        (.obj (alInsert c10Cfg.opt "a" (.obj [("b", JVal.num 2)]))) =
      .ok (JVal.num 2) :=
  ⟨rfl, rfl, rfl, rfl,
   (try_defaults_dotted_key_nested c10Cfg "a.b" "a" "b" (.num 2) rfl rfl
      (by decide)).1 rfl,
   ((try_defaults_dotted_key_nested c10Cfg "a.b" "a" "b" (.num 2) rfl rfl
      (by decide)).2.2.1 rfl).1,
   ((try_defaults_dotted_key_nested c10Cfg "a.b" "a" "b" (.num 2) rfl rfl
      (by decide)).2.2.1 rfl).2.1,
   ((try_defaults_dotted_key_nested c10Cfg "a.b" "a" "b" (.num 2) rfl rfl
      (by decide)).2.2.1 rfl).2.2⟩

end PyHelpers
